import Mathlib

/-!
Shallow embedding of the configuration resolution engine of the
`gateway-cli` repository (Deno/TypeScript).  The definitions below follow
`src/config.ts` (the current revision, the one whose `configSchema` types
`server` as an array of strings and is consumed by `main.ts`) and
`src/commands/init.ts`.  External library calls (`@std/cli` `parseArgs`,
`@std/collections` `deepMerge`, `js-yaml`) are modelled by Lean functions
that mirror their documented behaviour on the fixed option sets the
program uses.
-/

namespace GatewayCli

/-- The nested `serverInfo` record: all sub-fields optional strings
(`serverInfoSchema` in `src/config.ts`). -/
structure ServerInfoPart where
  name : Option String := none
  picture : Option String := none
  website : Option String := none
deriving DecidableEq

/-- A partial configuration (`Partial<Config>` in `src/config.ts`): every
field optional, `none` meaning "this source did not supply the field".
The `public` field of the TypeScript record is embedded as `publicFlag`
(`public` is kept free for forward compatibility of the Lean code).
`encryptionMode` is kept as a raw string because the extractors cast the
raw value unchecked (`as EncryptionMode`); the schema checks it later. -/
structure PartialConfig where
  server : Option (List String) := none
  privateKey : Option String := none
  relays : Option (List String) := none
  publicFlag : Option Bool := none
  serverInfo : Option ServerInfoPart := none
  allowedPublicKeys : Option (List String) := none
  encryptionMode : Option String := none
deriving DecidableEq

/-- The validated configuration (`Config = z.infer<typeof configSchema>`). -/
structure Config where
  server : List String
  privateKey : String
  relays : List String
  publicFlag : Bool
  serverInfo : Option ServerInfoPart
  allowedPublicKeys : Option (List String)
  encryptionMode : String
deriving DecidableEq

/-- The enumeration values of `encryptionMode`
(`z.enum([EncryptionMode.OPTIONAL, EncryptionMode.REQUIRED, EncryptionMode.DISABLED])`).
The SDK constants are modelled by their names. -/
def encValues : List String := ["OPTIONAL", "REQUIRED", "DISABLED"]

/-! ### String helpers

JavaScript string primitives used by the extractors, re-implemented
structurally so that every definition evaluates by kernel reduction. -/

/-- Split a list of characters at every occurrence of `sep`; the result is
always non-empty and keeps empty segments, exactly like JavaScript
`String.prototype.split` with a single-character separator. -/
def splitChars (sep : Char) : List Char → List (List Char)
  | [] => [[]]
  | c :: cs =>
    match splitChars sep cs with
    | [] => [[]]
    | g :: gs => if c = sep then [] :: g :: gs else (c :: g) :: gs

/-- JavaScript `value.split(sep)` for a single-character separator. -/
def jsSplit (s : String) (sep : Char) : List String :=
  (splitChars sep s.toList).map (fun l => String.mk l)

/-- JavaScript `value.toLowerCase()` restricted to ASCII case mapping. -/
def lowerString (s : String) : String :=
  String.mk (s.toList.map Char.toLower)

/-! ### Environment extractor (`loadConfigFromEnv` in `src/config.ts`) -/

/-- A process environment snapshot: an association list of variable
bindings; `Deno.env.get` returns the first binding of a name. -/
def Env : Type := List (String × String)

/-- Lookup of a variable (`Deno.env.get`). -/
def envGet (e : Env) (k : String) : Option String :=
  (List.find? (fun kv => kv.1 == k) e).map (fun kv => kv.2)

/-- The JavaScript idiom `if (Deno.env.get(k)) use(Deno.env.get(k))`:
the value is used only when it is set and truthy (non-empty). -/
def envTruthy (e : Env) (k : String) : Option String :=
  match envGet e k with
  | some v => if v == "" then none else some v
  | none => none

def envServer : String := "GW_SERVER"
def envPrivateKey : String := "GW_PRIVATE_KEY"
def envRelays : String := "GW_RELAYS"
def envPublic : String := "GW_PUBLIC"
def envServerInfoName : String := "GW_SERVER_INFO_NAME"
def envServerInfoPicture : String := "GW_SERVER_INFO_PICTURE"
def envServerInfoWebsite : String := "GW_SERVER_INFO_WEBSITE"
def envAllowedPublicKeys : String := "GW_ALLOWED_PUBLIC_KEYS"
def envEncryptionMode : String := "GW_ENCRYPTION_MODE"

/-- The guard `if (Object.keys(serverInfo).length > 0) config.serverInfo = serverInfo`:
the nested record is attached only when at least one sub-field was set. -/
def mkServerInfoOpt (n p w : Option String) : Option ServerInfoPart :=
  match n, p, w with
  | none, none, none => none
  | n, p, w => some { name := n, picture := p, website := w }

/-- `loadConfigFromEnv`: reads the nine `GW_`-prefixed variables; the
server command is split on the space character, list variables on commas,
`public` is `true` exactly for the literal string value `"true"`. -/
def loadConfigFromEnv (e : Env) : PartialConfig :=
  { server := (envTruthy e envServer).map (fun v => jsSplit v ' ')
    privateKey := envTruthy e envPrivateKey
    relays := (envTruthy e envRelays).map (fun v => jsSplit v ',')
    publicFlag := (envTruthy e envPublic).map (fun v => v == "true")
    serverInfo := mkServerInfoOpt (envTruthy e envServerInfoName)
      (envTruthy e envServerInfoPicture) (envTruthy e envServerInfoWebsite)
    allowedPublicKeys := (envTruthy e envAllowedPublicKeys).map (fun v => jsSplit v ',')
    encryptionMode := envTruthy e envEncryptionMode }

/-! ### File extractor (`loadConfigFromYaml` in `src/config.ts`) -/

/-- Outcome of `Deno.readTextFile` on the fixed path
`contextgw.config.yml`. -/
inductive FileReadResult where
  | notFound
  | readError (msg : String)
  | content (text : String)

/-- `loadConfigFromYaml`: a missing file yields the empty partial; any
other read error is re-thrown; the content is handed to the YAML parser
(`js-yaml`, external — passed in as `py`) whose own failure propagates
through the same `catch` unchanged. -/
def loadConfigFromYaml (fs : FileReadResult)
    (py : String → Except String PartialConfig) : Except String PartialConfig :=
  match fs with
  | .notFound => .ok {}
  | .readError msg => .error msg
  | .content text => py text

/-! ### Command-line extractor (`loadConfigFromCli` in `src/config.ts`)

The argument vector is parsed by `@std/cli` `parseArgs` with the fixed
options `boolean: [help, version, public]`,
`string: [private-key, encryption-mode, server-info-name,
server-info-picture, server-info-website]`,
`collect: [server, relays, allowed-public-keys]`, `alias: h->help, v->version`.
`parseArgsModel` below mirrors that minimist-style grammar for this fixed
option set: `--flag=value` and `--flag value` forms, `--no-<bool>`
negation, collected flags accumulating one value per occurrence and
absent collected flags left out of the result, everything after `--` and
every non-flag token going to the positionals. -/

/-- Result record of the `parseArgs` call: collected flags are `none`
when they never occurred (so the JavaScript truthiness test on them is
`Option.isSome`; a present array is truthy even when empty). -/
structure ParsedArgs where
  help : Bool := false
  version : Bool := false
  publicFlag : Bool := false
  server : Option (List String) := none
  relays : Option (List String) := none
  allowedPublicKeys : Option (List String) := none
  privateKey : Option String := none
  encryptionMode : Option String := none
  serverInfoName : Option String := none
  serverInfoPicture : Option String := none
  serverInfoWebsite : Option String := none
  positional : List String := []
deriving DecidableEq

def boolFlags : List String := ["help", "version", "public"]

def stringFlags : List String :=
  ["private-key", "encryption-mode", "server-info-name",
   "server-info-picture", "server-info-website"]

def collectFlags : List String := ["server", "relays", "allowed-public-keys"]

/-- Whether a token looks like another flag (starts with a dash). -/
def isFlagToken (t : String) : Bool :=
  (List.isPrefixOf ['-'] t.toList) && t != "-"

/-- Split a long option body at its first `=` sign. -/
def splitEqChars : List Char → List Char × Option (List Char)
  | [] => ([], none)
  | c :: cs =>
    if c = '=' then ([], some cs)
    else
      match splitEqChars cs with
      | (k, v) => (c :: k, v)

def splitEqTok (s : String) : String × Option String :=
  match splitEqChars s.toList with
  | (k, v) => (String.mk k, v.map String.mk)

def ParsedArgs.setBool (p : ParsedArgs) (k : String) (v : Bool) : ParsedArgs :=
  if k == "help" then { p with help := v }
  else if k == "version" then { p with version := v }
  else if k == "public" then { p with publicFlag := v }
  else p

def ParsedArgs.setStr (p : ParsedArgs) (k : String) (v : String) : ParsedArgs :=
  if k == "private-key" then { p with privateKey := some v }
  else if k == "encryption-mode" then { p with encryptionMode := some v }
  else if k == "server-info-name" then { p with serverInfoName := some v }
  else if k == "server-info-picture" then { p with serverInfoPicture := some v }
  else if k == "server-info-website" then { p with serverInfoWebsite := some v }
  else p

def ParsedArgs.addCollect (p : ParsedArgs) (k : String) (v : String) : ParsedArgs :=
  if k == "server" then { p with server := some ((p.server.getD []) ++ [v]) }
  else if k == "relays" then { p with relays := some ((p.relays.getD []) ++ [v]) }
  else if k == "allowed-public-keys" then
    { p with allowedPublicKeys := some ((p.allowedPublicKeys.getD []) ++ [v]) }
  else p

/-- The token-consuming loop of `parseArgs` for the fixed option set.
Each step consumes at least one token, so running it with fuel equal to
the number of tokens is the same as the unbounded loop; the explicit
fuel keeps the recursion structural. -/
def parseArgsLoop : Nat → ParsedArgs → List String → ParsedArgs
  | 0, p, _ => p
  | _, p, [] => p
  | fuel + 1, p, t :: rest =>
    if t == "--" then { p with positional := p.positional ++ rest }
    else if List.isPrefixOf ['-', '-'] t.toList then
      match splitEqTok (String.mk (t.toList.drop 2)) with
      | (k, veq) =>
        if boolFlags.contains k then
          match veq with
          | some v => parseArgsLoop fuel (p.setBool k (v == "true")) rest
          | none => parseArgsLoop fuel (p.setBool k true) rest
        else if List.isPrefixOf ['n', 'o', '-'] k.toList
            && boolFlags.contains (String.mk (k.toList.drop 3)) then
          parseArgsLoop fuel (p.setBool (String.mk (k.toList.drop 3)) false) rest
        else if stringFlags.contains k then
          match veq with
          | some v => parseArgsLoop fuel (p.setStr k v) rest
          | none =>
            match rest with
            | [] => parseArgsLoop fuel (p.setStr k "") []
            | v :: rest' =>
              if isFlagToken v then parseArgsLoop fuel (p.setStr k "") (v :: rest')
              else parseArgsLoop fuel (p.setStr k v) rest'
        else if collectFlags.contains k then
          match veq with
          | some v => parseArgsLoop fuel (p.addCollect k v) rest
          | none =>
            match rest with
            | [] => parseArgsLoop fuel (p.addCollect k "") []
            | v :: rest' =>
              if isFlagToken v then parseArgsLoop fuel (p.addCollect k "") (v :: rest')
              else parseArgsLoop fuel (p.addCollect k v) rest'
        else
          match veq, rest with
          | none, v :: rest' =>
            if isFlagToken v then parseArgsLoop fuel p (v :: rest')
            else parseArgsLoop fuel p rest'
          | _, _ => parseArgsLoop fuel p rest
    else if t == "-h" then parseArgsLoop fuel (p.setBool "help" true) rest
    else if t == "-v" then parseArgsLoop fuel (p.setBool "version" true) rest
    else if isFlagToken t then parseArgsLoop fuel p rest
    else parseArgsLoop fuel { p with positional := p.positional ++ [t] } rest

def parseArgsModel (args : List String) : ParsedArgs :=
  parseArgsLoop args.length {} args

/-- The JavaScript truthiness test on an optional string flag value
(`if (parsedArgs[k]) ...`): set and non-empty. -/
def truthyStr : Option String → Option String
  | some v => if v == "" then none else some v
  | none => none

/-- `loadConfigFromCli`: when `--server` occurred, its collected values
followed by any remaining positional arguments form the server command;
otherwise the positional arguments alone do (when there are any). The
remaining flags are copied under truthiness guards, and the three
`--server-info-*` flags are folded into the nested record. -/
def loadConfigFromCli (args : List String) : PartialConfig :=
  let pa := parseArgsModel args
  { server :=
      match pa.server with
      | some s => some (s ++ pa.positional)
      | none => if pa.positional.isEmpty then none else some pa.positional
    privateKey := truthyStr pa.privateKey
    relays := pa.relays
    publicFlag := if pa.publicFlag then some true else none
    allowedPublicKeys := pa.allowedPublicKeys
    encryptionMode := truthyStr pa.encryptionMode
    serverInfo := mkServerInfoOpt (truthyStr pa.serverInfoName)
      (truthyStr pa.serverInfoPicture) (truthyStr pa.serverInfoWebsite) }

/-! ### Merge engine (`deepMerge(..., { arrays: "replace" })` in `loadConfig`) -/

/-- Per-field behaviour of `deepMerge` with `arrays: "replace"` on leaf
values: a field present in the higher-precedence partial replaces the
lower one wholesale. -/
def mergeField {α : Type} (lo hi : Option α) : Option α :=
  match hi with
  | some x => some x
  | none => lo

/-- `deepMerge` descends into the plain nested record field-by-field. -/
def mergeServerInfo (lo hi : ServerInfoPart) : ServerInfoPart :=
  { name := mergeField lo.name hi.name
    picture := mergeField lo.picture hi.picture
    website := mergeField lo.website hi.website }

def mergeServerInfoOpt : Option ServerInfoPart → Option ServerInfoPart → Option ServerInfoPart
  | none, hi => hi
  | some a, none => some a
  | some a, some b => some (mergeServerInfo a b)

/-- One `deepMerge(lo, hi, { arrays: "replace" })` step. -/
def deepMergeReplace (lo hi : PartialConfig) : PartialConfig :=
  { server := mergeField lo.server hi.server
    privateKey := mergeField lo.privateKey hi.privateKey
    relays := mergeField lo.relays hi.relays
    publicFlag := mergeField lo.publicFlag hi.publicFlag
    serverInfo := mergeServerInfoOpt lo.serverInfo hi.serverInfo
    allowedPublicKeys := mergeField lo.allowedPublicKeys hi.allowedPublicKeys
    encryptionMode := mergeField lo.encryptionMode hi.encryptionMode }

/-- The merged candidate built inside `loadConfig`:
`deepMerge(deepMerge(envConfig, yamlConfig, replace), cliConfig, replace)`. -/
def mergedOf (envP fileP cliP : PartialConfig) : PartialConfig :=
  deepMergeReplace (deepMergeReplace envP fileP) cliP

/-! ### Schema validation (`configSchema.parse` in `src/config.ts`) -/

def serverErrors : Option (List String) → List String
  | none => ["server: Required"]
  | some l => if l.length < 1 then ["server: Array must contain at least 1 element"] else []

def privateKeyErrors : Option String → List String
  | none => ["privateKey: Required"]
  | some k => if k.length < 64 then ["privateKey: String must contain at least 64 characters"] else []

def relaysErrors : Option (List String) → List String
  | none => ["relays: Required"]
  | some l => if l.length < 1 then ["relays: Array must contain at least 1 element"] else []

def encryptionModeErrors : Option String → List String
  | none => []
  | some m => if encValues.contains m then [] else ["encryptionMode: Invalid enum value"]

/-- All violations collected by one `configSchema` validation pass. -/
def fieldErrors (p : PartialConfig) : List String :=
  serverErrors p.server ++ privateKeyErrors p.privateKey
    ++ relaysErrors p.relays ++ encryptionModeErrors p.encryptionMode

/-- `configSchema.parse`: succeeds exactly when no violation is
collected, applying the schema defaults (`public` defaults to `false`,
`encryptionMode` to `OPTIONAL`); otherwise the collected violations are
raised.  When `fieldErrors p = []` the three required fields are
necessarily present, so the `getD` defaults for them are never used.
String lengths are counted with `String.length`. -/
def configSchemaParse (p : PartialConfig) : Except (List String) Config :=
  if fieldErrors p = [] then
    .ok { server := p.server.getD []
          privateKey := p.privateKey.getD ""
          relays := p.relays.getD []
          publicFlag := p.publicFlag.getD false
          serverInfo := p.serverInfo
          allowedPublicKeys := p.allowedPublicKeys
          encryptionMode := p.encryptionMode.getD "OPTIONAL" }
  else .error (fieldErrors p)

/-- `loadConfig`: run the three extractors, merge with precedence
environment < file < command line, validate. A file-extractor failure
propagates (in `main.ts` the rejection is caught at top level and the
process exits with status 1). -/
def loadConfig (e : Env) (fs : FileReadResult)
    (py : String → Except String PartialConfig) (args : List String) :
    Except (List String) Config :=
  match loadConfigFromYaml fs py with
  | .error msg => .error [msg]
  | .ok fileP =>
      configSchemaParse (mergedOf (loadConfigFromEnv e) fileP (loadConfigFromCli args))

/-! ### Interactive wizard (`src/commands/init.ts`) -/

/-- The boolean branch of `promptForValue` (`init.ts`): the raw prompt
answer is `none` when the input stream is closed (`prompt` returned
`null`) and `some a` for an entered line `a`.  An optional field with the
empty answer is left absent; otherwise the value is
`answer?.toLowerCase() === 'y'` (for a `null` answer the comparison is
against `undefined` and yields `false`).  A boolean value always
satisfies the field schema, so the retry loop returns it at once. -/
def promptBoolAnswer (isOpt : Bool) (answer : Option String) : Option Bool :=
  if isOpt && answer == some "" then none
  else
    match answer with
    | some a => some (lowerString a == "y")
    | none => some false

/-- Shape of every partial configuration that `initCommand` can
accumulate and confirm: each of the three required fields was re-prompted
until its own schema fragment accepted it (`server`/`relays` non-empty
arrays, `privateKey` of length at least 64), and `encryptionMode`, when
answered, passed the enum check. -/
def wizardProduced (p : PartialConfig) : Prop :=
  (∃ l, p.server = some l ∧ 1 ≤ l.length) ∧
  (∃ k, p.privateKey = some k ∧ 64 ≤ k.length) ∧
  (∃ r, p.relays = some r ∧ 1 ≤ r.length) ∧
  (∀ m, p.encryptionMode = some m → encValues.contains m = true)

/-! ### Spec-side definitions

`highestPrecedence` is written from the specification's words ("the
value from the highest-precedence source supplying it, CLI > file >
environment") rather than from the merge code, to be compared with the
merge engine's result. -/

/-- The value of a field from the highest-precedence source supplying
it (arguments ordered CLI, file, environment). -/
def highestPrecedence {α : Type} (cli file env : Option α) : Option α :=
  if cli.isSome then cli else if file.isSome then file else env

/-- The `name` sub-field of an optional nested record, flattened. -/
def siName : Option ServerInfoPart → Option String
  | none => none
  | some si => si.name

/-- The `picture` sub-field of an optional nested record, flattened. -/
def siPicture : Option ServerInfoPart → Option String
  | none => none
  | some si => si.picture

/-- The `website` sub-field of an optional nested record, flattened. -/
def siWebsite : Option ServerInfoPart → Option String
  | none => none
  | some si => si.website

/-- Remove every binding of a variable from an environment snapshot. -/
def envRemove (e : Env) (k : String) : Env :=
  List.filter (fun kv => kv.1 != k) e

/-! ### Helper lemmas -/

theorem mergeField_none_left {α : Type} (hi : Option α) :
    mergeField none hi = hi := by
  cases hi <;> rfl

theorem mergeField_none_right {α : Type} (lo : Option α) :
    mergeField lo none = lo := rfl

theorem mergeField_pick {α : Type} (lo mid hi : Option α) :
    mergeField (mergeField lo mid) hi = highestPrecedence hi mid lo := by
  cases hi <;> cases mid <;> simp [mergeField, highestPrecedence]

theorem siName_mergeOpt (a b : Option ServerInfoPart) :
    siName (mergeServerInfoOpt a b) = mergeField (siName a) (siName b) := by
  cases a <;> cases b <;>
    simp [mergeServerInfoOpt, mergeServerInfo, siName, mergeField_none_left, mergeField_none_right]

theorem siPicture_mergeOpt (a b : Option ServerInfoPart) :
    siPicture (mergeServerInfoOpt a b) = mergeField (siPicture a) (siPicture b) := by
  cases a <;> cases b <;>
    simp [mergeServerInfoOpt, mergeServerInfo, siPicture, mergeField_none_left, mergeField_none_right]

theorem siWebsite_mergeOpt (a b : Option ServerInfoPart) :
    siWebsite (mergeServerInfoOpt a b) = mergeField (siWebsite a) (siWebsite b) := by
  cases a <;> cases b <;>
    simp [mergeServerInfoOpt, mergeServerInfo, siWebsite, mergeField_none_left, mergeField_none_right]

theorem fieldErrors_nil {p : PartialConfig} (h : fieldErrors p = []) :
    serverErrors p.server = [] ∧ privateKeyErrors p.privateKey = [] ∧
    relaysErrors p.relays = [] ∧ encryptionModeErrors p.encryptionMode = [] := by
  unfold fieldErrors at h
  simpa [List.append_eq_nil] using h

theorem serverErrors_nil {o : Option (List String)} (h : serverErrors o = []) :
    ∃ l, o = some l ∧ 1 ≤ l.length := by
  rcases o with _ | l
  · exact absurd h (by simp [serverErrors])
  · refine ⟨l, rfl, ?_⟩
    by_contra hlen
    have hl0 : l.length < 1 := by omega
    simp only [serverErrors] at h
    rw [if_pos hl0] at h
    simp at h

theorem privateKeyErrors_nil {o : Option String} (h : privateKeyErrors o = []) :
    ∃ k, o = some k ∧ 64 ≤ k.length := by
  rcases o with _ | k
  · exact absurd h (by simp [privateKeyErrors])
  · refine ⟨k, rfl, ?_⟩
    by_contra hlen
    have hl0 : k.length < 64 := by omega
    simp only [privateKeyErrors] at h
    rw [if_pos hl0] at h
    simp at h

theorem relaysErrors_nil {o : Option (List String)} (h : relaysErrors o = []) :
    ∃ l, o = some l ∧ 1 ≤ l.length := by
  rcases o with _ | l
  · exact absurd h (by simp [relaysErrors])
  · refine ⟨l, rfl, ?_⟩
    by_contra hlen
    have hl0 : l.length < 1 := by omega
    simp only [relaysErrors] at h
    rw [if_pos hl0] at h
    simp at h

theorem configSchemaParse_ok {p : PartialConfig} {c : Config}
    (h : configSchemaParse p = Except.ok c) :
    fieldErrors p = [] ∧
    p.server = some c.server ∧ p.privateKey = some c.privateKey ∧
    p.relays = some c.relays ∧ c.publicFlag = p.publicFlag.getD false ∧
    c.serverInfo = p.serverInfo ∧ c.allowedPublicKeys = p.allowedPublicKeys ∧
    c.encryptionMode = p.encryptionMode.getD "OPTIONAL" := by
  unfold configSchemaParse at h
  by_cases he : fieldErrors p = []
  · rw [if_pos he] at h
    cases h
    obtain ⟨hsv, hpk, hrl, -⟩ := fieldErrors_nil he
    obtain ⟨l, hl, -⟩ := serverErrors_nil hsv
    obtain ⟨k, hk, -⟩ := privateKeyErrors_nil hpk
    obtain ⟨r, hr, -⟩ := relaysErrors_nil hrl
    exact ⟨he, by simp [hl], by simp [hk], by simp [hr], rfl, rfl, rfl, rfl⟩
  · rw [if_neg he] at h
    exact absurd h (by simp)

/-! ### Claim theorems -/

/-- C4: the file extractor returns the empty partial configuration (not
an error) when the declarative file does not exist; any other read
failure and any parse failure propagate unchanged, and `loadConfig`
turns such a failure into its own error (fatal: `main.ts` catches the
rejection at top level and exits with status 1). -/
theorem yaml_missing_file_and_failures (py : String → Except String PartialConfig)
    (msg text : String) (e : Env) (fs : FileReadResult) (args : List String) :
    loadConfigFromYaml FileReadResult.notFound py = Except.ok {} ∧
    loadConfigFromYaml (FileReadResult.readError msg) py = Except.error msg ∧
    (py text = Except.error msg →
      loadConfigFromYaml (FileReadResult.content text) py = Except.error msg) ∧
    (loadConfigFromYaml fs py = Except.error msg →
      loadConfig e fs py args = Except.error [msg]) := by
  refine ⟨rfl, rfl, fun h => h, fun h => ?_⟩
  unfold loadConfig
  rw [h]

/-- Witness for C4: a missing file yields the empty partial, a read
failure is fatal for `loadConfig`, and a parse failure propagates. -/
theorem yaml_missing_file_and_failures_witness :
    loadConfigFromYaml FileReadResult.notFound (fun _ => Except.error ("bad yaml")) =
      Except.ok {} ∧
    loadConfig [] (FileReadResult.readError ("io failure"))
      (fun _ => Except.error ("bad yaml")) [] = Except.error ["io failure"] ∧
    loadConfigFromYaml (FileReadResult.content ("text")) (fun _ => Except.error ("bad yaml")) =
      Except.error ("bad yaml") :=
  ⟨(yaml_missing_file_and_failures (fun _ => Except.error ("bad yaml")) ("io failure") ("text")
      [] (FileReadResult.readError ("io failure")) []).1,
   (yaml_missing_file_and_failures (fun _ => Except.error ("bad yaml")) ("io failure") ("text")
      [] (FileReadResult.readError ("io failure")) []).2.2.2 rfl,
   (yaml_missing_file_and_failures (fun _ => Except.error ("bad yaml")) ("bad yaml") ("text")
      [] FileReadResult.notFound []).2.2.1 rfl⟩

/-- C5: a merged candidate whose `privateKey` is a string shorter than
64 characters fails schema validation (no configuration value is
produced); a `privateKey` of length at least 64 contributes no
violation for this field. -/
theorem privateKey_min_length_validation (p : PartialConfig) (k : String)
    (hk : p.privateKey = some k) :
    (k.length < 64 →
      configSchemaParse p = Except.error (fieldErrors p) ∧ fieldErrors p ≠ []) ∧
    (64 ≤ k.length → privateKeyErrors p.privateKey = []) := by
  constructor
  · intro hlt
    have hpk : privateKeyErrors p.privateKey =
        ["privateKey: String must contain at least 64 characters"] := by
      rw [hk]
      simp only [privateKeyErrors]
      rw [if_pos hlt]
    have hne : fieldErrors p ≠ [] := by
      intro h
      obtain ⟨-, hpk0, -, -⟩ := fieldErrors_nil h
      rw [hpk] at hpk0
      simp at hpk0
    refine ⟨?_, hne⟩
    unfold configSchemaParse
    rw [if_neg hne]
  · intro hge
    rw [hk]
    simp only [privateKeyErrors]
    rw [if_neg (by omega)]

def key64 : String := "a1b2c3d4e5f6a1b2c3d4e5f6a1b2c3d4e5f6a1b2c3d4e5f6a1b2c3d4e5f6a1b2"

def shortKeyPartial : PartialConfig :=
  { server := some ["node"], privateKey := some ("abc"), relays := some ["r"] }

def longKeyPartial : PartialConfig :=
  { server := some ["node"], privateKey := some key64, relays := some ["r"] }

/-- Witness for C5: a 3-character key is rejected with a collected
violation, a 64-character key contributes no violation. -/
theorem privateKey_min_length_validation_witness :
    (configSchemaParse shortKeyPartial = Except.error (fieldErrors shortKeyPartial) ∧
      fieldErrors shortKeyPartial ≠ []) ∧
    privateKeyErrors longKeyPartial.privateKey = [] :=
  ⟨(privateKey_min_length_validation shortKeyPartial ("abc") rfl).1 (by decide),
   (privateKey_min_length_validation longKeyPartial key64 rfl).2 (by decide)⟩

/-- C6 counterexample: with `GW_SERVER` set to `"a  b"` (two spaces) the
environment extractor yields `["a", "", "b"]`: an empty element appears
and the result differs from the whitespace-token sequence `["a", "b"]`,
so the claim that the value is split "on whitespace" with "no empty
elements" fails at this input. -/
theorem gw_server_split_counterexample :
    (loadConfigFromEnv [(envServer, "a  b")]).server = some ["a", "", "b"] ∧
    "" ∈ ["a", "", "b"] ∧ ["a", "", "b"] ≠ ["a", "b"] :=
  ⟨by decide, by decide, by decide⟩

/-- C6 (amended): for a non-empty value of `GW_SERVER` the extractor
yields the value split on each single space character (JavaScript
`split(' ')`): whitespace-separated tokens become their own elements,
but adjacent, leading or trailing spaces produce empty string elements
and non-space whitespace is not a separator. -/
theorem gw_server_split_single_space (e : Env) (v : String)
    (hv : envGet e envServer = some v) (hne : v ≠ "") :
    (loadConfigFromEnv e).server = some (jsSplit v ' ') := by
  simp only [loadConfigFromEnv]
  simp [envTruthy, hv, hne]

/-- Witness for C6 (amended) at `GW_SERVER = "node x"`. -/
theorem gw_server_split_single_space_witness :
    (loadConfigFromEnv [(envServer, "node x")]).server = some (jsSplit ("node x") ' ') :=
  gw_server_split_single_space [(envServer, "node x")] ("node x") rfl (by decide)

/-- C8: for every argument vector the command-line extractor's `public`
field is either absent or `true` (the truthiness guard drops a parsed
`false`), so the command line can never override a `true` value for
`public` supplied by the file or the environment. -/
theorem cli_public_never_false (args : List String) (envP fileP : PartialConfig)
    (htrue : mergeField envP.publicFlag fileP.publicFlag = some true) :
    ((loadConfigFromCli args).publicFlag = none ∨
      (loadConfigFromCli args).publicFlag = some true) ∧
    (mergedOf envP fileP (loadConfigFromCli args)).publicFlag = some true := by
  have hcli : (loadConfigFromCli args).publicFlag = none ∨
      (loadConfigFromCli args).publicFlag = some true := by
    simp only [loadConfigFromCli]
    by_cases hp : (parseArgsModel args).publicFlag
    · right
      simp [hp]
    · left
      simp [hp]
  refine ⟨hcli, ?_⟩
  show mergeField (deepMergeReplace envP fileP).publicFlag
    (loadConfigFromCli args).publicFlag = some true
  have hmid : (deepMergeReplace envP fileP).publicFlag = some true := htrue
  rcases hcli with h | h <;> rw [h, hmid] <;> rfl

/-- Witness for C8: `--no-public` parses `public` to `false`, the
extractor leaves the field absent, and a file-supplied `true` survives
the merge. -/
theorem cli_public_never_false_witness :
    ((loadConfigFromCli ["--no-public"]).publicFlag = none ∨
      (loadConfigFromCli ["--no-public"]).publicFlag = some true) ∧
    (mergedOf {} { publicFlag := some true }
      (loadConfigFromCli ["--no-public"])).publicFlag = some true :=
  cli_public_never_false ["--no-public"] {} { publicFlag := some true } (by decide)

theorem envGet_remove (e : Env) (k key : String) :
    envGet (envRemove e k) key = if key = k then none else envGet e key := by
  induction e with
  | nil => by_cases h : key = k <;> simp [envGet, envRemove, h]
  | cons kv tl ih =>
    rcases kv with ⟨a, b⟩
    by_cases hak : a = k
    · have h1 : envRemove ((a, b) :: tl) k = envRemove tl k := by
        simp [envRemove, List.filter_cons, hak]
      rw [h1, ih]
      by_cases hkk : key = k
      · rw [if_pos hkk, if_pos hkk]
      · rw [if_neg hkk, if_neg hkk]
        have hakey : ¬ a = key := fun hh => hkk (hh ▸ hak ▸ rfl)
        show envGet tl key = envGet ((a, b) :: tl) key
        simp [envGet, List.find?_cons, hakey]
    · have h1 : envRemove ((a, b) :: tl) k = (a, b) :: envRemove tl k := by
        simp [envRemove, List.filter_cons, hak]
      rw [h1]
      by_cases hakey : a = key
      · subst hakey
        rw [if_neg hak]
        simp [envGet, List.find?_cons]
      · have h2 : envGet ((a, b) :: envRemove tl k) key = envGet (envRemove tl k) key := by
          simp [envGet, List.find?_cons, hakey]
        rw [h2, ih]
        by_cases hkk : key = k
        · rw [if_pos hkk, if_pos hkk]
        · rw [if_neg hkk, if_neg hkk]
          show envGet tl key = envGet ((a, b) :: tl) key
          simp [envGet, List.find?_cons, hakey]

/-- C9: a prefixed configuration variable set to the empty string is
treated exactly as if it were unset: the extractor's output on such an
environment equals its output on the environment with the variable
removed (so the corresponding field is absent, and presence of a field
requires a non-empty value). -/
theorem env_empty_var_ignored (e : Env) (k : String)
    (hmem : k ∈ [envServer, envPrivateKey, envRelays, envPublic,
      envServerInfoName, envServerInfoPicture, envServerInfoWebsite,
      envAllowedPublicKeys, envEncryptionMode])
    (hk : envGet e k = some "") :
    loadConfigFromEnv e = loadConfigFromEnv (envRemove e k) := by
  have ht : ∀ key, envTruthy (envRemove e k) key = envTruthy e key := by
    intro key
    unfold envTruthy
    rw [envGet_remove]
    by_cases hkey : key = k
    · subst hkey
      rw [if_pos rfl, hk]
      simp
    · rw [if_neg hkey]
  unfold loadConfigFromEnv
  simp [ht]

/-- Witness for C9: `GW_RELAYS=""` behaves as an unset `GW_RELAYS`. -/
theorem env_empty_var_ignored_witness :
    loadConfigFromEnv [(envRelays, "")] =
      loadConfigFromEnv (envRemove [(envRelays, "")] envRelays) :=
  env_empty_var_ignored [(envRelays, "")] envRelays (by decide) rfl

/-- C10: the wizard's boolean prompt returns `true` exactly when the
lowercased answer is the single character `y`; every other non-empty
answer (including `yes` or `true`) yields `false`; the empty answer for
an optional boolean field yields absence. -/
theorem prompt_boolean_semantics (isOpt : Bool) (a : String) :
    (promptBoolAnswer isOpt (some a) = some true ↔ lowerString a = "y") ∧
    (a ≠ "" → lowerString a ≠ "y" → promptBoolAnswer isOpt (some a) = some false) ∧
    (promptBoolAnswer true (some "") = none) := by
  refine ⟨?_, ?_, rfl⟩
  · unfold promptBoolAnswer
    by_cases ha : a = ""
    · subst ha
      cases isOpt <;> simp [lowerString]
    · simp [ha]
  · intro ha hy
    unfold promptBoolAnswer
    simp [ha, hy]

/-- Witness for C10: `Y` maps to `true`, `yes` maps to `false`, the
empty answer on an optional boolean field maps to absence. -/
theorem prompt_boolean_semantics_witness :
    promptBoolAnswer false (some ("Y")) = some true ∧
    promptBoolAnswer false (some ("yes")) = some false ∧
    promptBoolAnswer true (some "") = none :=
  ⟨(prompt_boolean_semantics false ("Y")).1.mpr (by decide),
   (prompt_boolean_semantics false ("yes")).2.1 (by decide) (by decide),
   (prompt_boolean_semantics true "").2.2⟩

/-- C1: when `loadConfig` succeeds, each field of the returned
configuration carries the value of the highest-precedence source that
supplied it (command line > file > environment); for the optional
defaulted fields this holds whenever some source supplied the field,
and for the nested record it holds per leaf sub-field. -/
theorem loadConfig_field_precedence (e : Env) (fs : FileReadResult)
    (py : String → Except String PartialConfig) (args : List String)
    (fileP : PartialConfig) (c : Config)
    (hfile : loadConfigFromYaml fs py = Except.ok fileP)
    (hok : loadConfig e fs py args = Except.ok c) :
    some c.server = highestPrecedence (loadConfigFromCli args).server fileP.server
      (loadConfigFromEnv e).server ∧
    some c.privateKey = highestPrecedence (loadConfigFromCli args).privateKey
      fileP.privateKey (loadConfigFromEnv e).privateKey ∧
    some c.relays = highestPrecedence (loadConfigFromCli args).relays fileP.relays
      (loadConfigFromEnv e).relays ∧
    (∀ b, highestPrecedence (loadConfigFromCli args).publicFlag fileP.publicFlag
      (loadConfigFromEnv e).publicFlag = some b → c.publicFlag = b) ∧
    c.allowedPublicKeys = highestPrecedence (loadConfigFromCli args).allowedPublicKeys
      fileP.allowedPublicKeys (loadConfigFromEnv e).allowedPublicKeys ∧
    (∀ m, highestPrecedence (loadConfigFromCli args).encryptionMode fileP.encryptionMode
      (loadConfigFromEnv e).encryptionMode = some m → c.encryptionMode = m) ∧
    siName c.serverInfo = highestPrecedence (siName (loadConfigFromCli args).serverInfo)
      (siName fileP.serverInfo) (siName (loadConfigFromEnv e).serverInfo) ∧
    siPicture c.serverInfo = highestPrecedence (siPicture (loadConfigFromCli args).serverInfo)
      (siPicture fileP.serverInfo) (siPicture (loadConfigFromEnv e).serverInfo) ∧
    siWebsite c.serverInfo = highestPrecedence (siWebsite (loadConfigFromCli args).serverInfo)
      (siWebsite fileP.serverInfo) (siWebsite (loadConfigFromEnv e).serverInfo) := by
  unfold loadConfig at hok
  rw [hfile] at hok
  obtain ⟨-, hsv, hpk, hrl, hpb, hsi, hapk, henc⟩ := configSchemaParse_ok hok
  set envP := loadConfigFromEnv e with henvP
  set cliP := loadConfigFromCli args with hcliP
  have hms : (mergedOf envP fileP cliP).server
      = highestPrecedence cliP.server fileP.server envP.server := mergeField_pick _ _ _
  have hmk : (mergedOf envP fileP cliP).privateKey
      = highestPrecedence cliP.privateKey fileP.privateKey envP.privateKey := mergeField_pick _ _ _
  have hmr : (mergedOf envP fileP cliP).relays
      = highestPrecedence cliP.relays fileP.relays envP.relays := mergeField_pick _ _ _
  have hmp : (mergedOf envP fileP cliP).publicFlag
      = highestPrecedence cliP.publicFlag fileP.publicFlag envP.publicFlag := mergeField_pick _ _ _
  have hma : (mergedOf envP fileP cliP).allowedPublicKeys
      = highestPrecedence cliP.allowedPublicKeys fileP.allowedPublicKeys
          envP.allowedPublicKeys := mergeField_pick _ _ _
  have hme : (mergedOf envP fileP cliP).encryptionMode
      = highestPrecedence cliP.encryptionMode fileP.encryptionMode
          envP.encryptionMode := mergeField_pick _ _ _
  have hmsi : ∀ g : Option ServerInfoPart → Option String,
      (∀ x y, g (mergeServerInfoOpt x y) = mergeField (g x) (g y)) →
      g (mergedOf envP fileP cliP).serverInfo
        = highestPrecedence (g cliP.serverInfo) (g fileP.serverInfo) (g envP.serverInfo) := by
    intro g hg
    show g (mergeServerInfoOpt (mergeServerInfoOpt envP.serverInfo fileP.serverInfo)
      cliP.serverInfo) = _
    rw [hg, hg, mergeField_pick]
  refine ⟨?_, ?_, ?_, ?_, ?_, ?_, ?_, ?_, ?_⟩
  · rw [← hsv, hms]
  · rw [← hpk, hmk]
  · rw [← hrl, hmr]
  · intro b hb
    rw [← hmp] at hb
    rw [hpb, hb]
    rfl
  · rw [hapk, hma]
  · intro m hm
    rw [← hme] at hm
    rw [henc, hm]
    rfl
  · rw [hsi, hmsi siName siName_mergeOpt]
  · rw [hsi, hmsi siPicture siPicture_mergeOpt]
  · rw [hsi, hmsi siWebsite siWebsite_mergeOpt]

def precEnvW : Env := [(envPrivateKey, key64), (envPublic, "true")]

def precArgsW : List String := ["--server", "node", "--relays", "r"]

def precConfigW : Config :=
  { server := ["node"], privateKey := key64, relays := ["r"], publicFlag := true
    serverInfo := none, allowedPublicKeys := none, encryptionMode := "OPTIONAL" }

/-- Witness for C1: `privateKey` and `public` come from the environment,
`server` and `relays` from the command line, with no file present. -/
theorem loadConfig_field_precedence_witness :
    some precConfigW.server = highestPrecedence (loadConfigFromCli precArgsW).server
      (PartialConfig.server {}) (loadConfigFromEnv precEnvW).server ∧
    some precConfigW.privateKey = highestPrecedence
      (loadConfigFromCli precArgsW).privateKey (PartialConfig.privateKey {})
      (loadConfigFromEnv precEnvW).privateKey ∧
    precConfigW.publicFlag = true :=
  have h := loadConfig_field_precedence precEnvW FileReadResult.notFound
    (fun _ => Except.error ("unused")) precArgsW {} precConfigW rfl rfl
  ⟨h.1, h.2.1, h.2.2.2.1 true (by decide)⟩

/-- C2: an ordered-sequence field (`server`, `relays`,
`allowedPublicKeys`) supplied by two sources merges to the
higher-precedence source's full sequence, never a concatenation or
union of the two. -/
theorem merge_sequence_wholesale (envP fileP cliP : PartialConfig) (ys : List String) :
    ((cliP.server = some ys → (mergedOf envP fileP cliP).server = some ys) ∧
     (cliP.server = none → fileP.server = some ys →
       (mergedOf envP fileP cliP).server = some ys)) ∧
    ((cliP.relays = some ys → (mergedOf envP fileP cliP).relays = some ys) ∧
     (cliP.relays = none → fileP.relays = some ys →
       (mergedOf envP fileP cliP).relays = some ys)) ∧
    ((cliP.allowedPublicKeys = some ys →
       (mergedOf envP fileP cliP).allowedPublicKeys = some ys) ∧
     (cliP.allowedPublicKeys = none → fileP.allowedPublicKeys = some ys →
       (mergedOf envP fileP cliP).allowedPublicKeys = some ys)) := by
  refine ⟨⟨fun h1 => ?_, fun h1 h2 => ?_⟩, ⟨fun h1 => ?_, fun h1 h2 => ?_⟩,
    ⟨fun h1 => ?_, fun h1 h2 => ?_⟩⟩
  · show mergeField (mergeField envP.server fileP.server) cliP.server = some ys
    rw [h1]
    rfl
  · show mergeField (mergeField envP.server fileP.server) cliP.server = some ys
    rw [h1, h2]
    rfl
  · show mergeField (mergeField envP.relays fileP.relays) cliP.relays = some ys
    rw [h1]
    rfl
  · show mergeField (mergeField envP.relays fileP.relays) cliP.relays = some ys
    rw [h1, h2]
    rfl
  · show mergeField (mergeField envP.allowedPublicKeys fileP.allowedPublicKeys)
      cliP.allowedPublicKeys = some ys
    rw [h1]
    rfl
  · show mergeField (mergeField envP.allowedPublicKeys fileP.allowedPublicKeys)
      cliP.allowedPublicKeys = some ys
    rw [h1, h2]
    rfl

def fileRelaysC : PartialConfig := { relays := some ["c"] }

/-- Witness for C2: environment `GW_RELAYS=a,b` combined with a file
supplying `relays: [c]` and no command-line relays yields `[c]`. -/
theorem merge_sequence_wholesale_witness :
    (mergedOf (loadConfigFromEnv [(envRelays, "a,b")]) fileRelaysC
      (loadConfigFromCli [])).relays = some ["c"] ∧
    (loadConfigFromEnv [(envRelays, "a,b")]).relays = some ["a", "b"] :=
  ⟨(merge_sequence_wholesale (loadConfigFromEnv [(envRelays, "a,b")]) fileRelaysC
      (loadConfigFromCli []) ["c"]).2.1.2 (by decide) (by decide),
   by decide⟩

/-- C3: the nested `serverInfo` record merges field-by-field: a
higher-precedence source supplying only `picture` leaves a
lower-precedence `name` intact, and the remaining sub-field still
follows per-sub-field precedence — the one exception to wholesale
replacement. -/
theorem serverInfo_merge_fieldwise (envP fileP cliP : PartialConfig) (n pic : String)
    (hcli : cliP.serverInfo = some { name := none, picture := some pic, website := none })
    (hfile : siName fileP.serverInfo = some n) :
    siName (mergedOf envP fileP cliP).serverInfo = some n ∧
    siPicture (mergedOf envP fileP cliP).serverInfo = some pic ∧
    siWebsite (mergedOf envP fileP cliP).serverInfo =
      mergeField (siWebsite envP.serverInfo) (siWebsite fileP.serverInfo) := by
  have hproj : (mergedOf envP fileP cliP).serverInfo
      = mergeServerInfoOpt (mergeServerInfoOpt envP.serverInfo fileP.serverInfo)
          cliP.serverInfo := rfl
  refine ⟨?_, ?_, ?_⟩
  · rw [hproj, siName_mergeOpt, siName_mergeOpt, hcli, hfile]
    rfl
  · rw [hproj, siPicture_mergeOpt, hcli]
    rfl
  · rw [hproj, siWebsite_mergeOpt, siWebsite_mergeOpt, hcli]
    rfl

def fileNameX : PartialConfig := { serverInfo := some { name := some ("X") } }

/-- Witness for C3: file `serverInfo.name: X` plus command line
`--server-info-picture Y` merge to a record carrying both sub-fields. -/
theorem serverInfo_merge_fieldwise_witness :
    siName (mergedOf {} fileNameX
      (loadConfigFromCli ["--server-info-picture", "Y"])).serverInfo = some ("X") ∧
    siPicture (mergedOf {} fileNameX
      (loadConfigFromCli ["--server-info-picture", "Y"])).serverInfo = some ("Y") ∧
    siWebsite (mergedOf {} fileNameX
      (loadConfigFromCli ["--server-info-picture", "Y"])).serverInfo =
      mergeField (siWebsite (PartialConfig.serverInfo {})) (siWebsite fileNameX.serverInfo) :=
  serverInfo_merge_fieldwise {} fileNameX
    (loadConfigFromCli ["--server-info-picture", "Y"]) ("X") ("Y") (by decide) (by decide)

theorem loadConfigFromEnv_nil : loadConfigFromEnv [] = {} := rfl

theorem loadConfigFromCli_nil : loadConfigFromCli [] = {} := rfl

theorem mergedOf_empty (p : PartialConfig) : mergedOf {} p {} = p := by
  rcases p with ⟨s, k, r, pb, si, apk, em⟩
  rcases si with _ | si <;>
    simp [mergedOf, deepMergeReplace, mergeField_none_left, mergeField_none_right,
      mergeServerInfoOpt]

/-- C7: a partial configuration assembled and confirmed by the wizard
(its per-field retry loop guarantees the three required fields are
present and valid), written to the declarative file and re-loaded with
no environment variables and no command-line arguments, resolves to
exactly the confirmed value: every supplied field is unchanged and the
omitted optional fields take their schema defaults.  The hypothesis
`hpy` states that the file written by the wizard parses back to the
confirmed partial (the `js-yaml` dump/load round trip, external to this
repository). -/
theorem wizard_round_trip (p : PartialConfig) (py : String → Except String PartialConfig)
    (text : String) (hw : wizardProduced p) (hpy : py text = Except.ok p) :
    loadConfig [] (FileReadResult.content text) py [] =
      Except.ok { server := p.server.getD []
                  privateKey := p.privateKey.getD ""
                  relays := p.relays.getD []
                  publicFlag := p.publicFlag.getD false
                  serverInfo := p.serverInfo
                  allowedPublicKeys := p.allowedPublicKeys
                  encryptionMode := p.encryptionMode.getD "OPTIONAL" } := by
  obtain ⟨⟨l, hl, hllen⟩, ⟨k, hk, hklen⟩, ⟨r, hr, hrlen⟩, hencm⟩ := hw
  have herr : fieldErrors p = [] := by
    unfold fieldErrors
    rw [hl, hk, hr]
    have h1 : serverErrors (some l) = [] := by
      simp only [serverErrors]
      rw [if_neg (by omega)]
    have h2 : privateKeyErrors (some k) = [] := by
      simp only [privateKeyErrors]
      rw [if_neg (by omega)]
    have h3 : relaysErrors (some r) = [] := by
      simp only [relaysErrors]
      rw [if_neg (by omega)]
    have h4 : encryptionModeErrors p.encryptionMode = [] := by
      rcases hm : p.encryptionMode with _ | m
      · rfl
      · simp only [encryptionModeErrors]
        rw [if_pos (hencm m hm)]
    rw [h1, h2, h3, h4]
    rfl
  have hy : loadConfigFromYaml (FileReadResult.content text) py = Except.ok p := hpy
  have hstep : loadConfig [] (FileReadResult.content text) py [] =
      configSchemaParse (mergedOf (loadConfigFromEnv []) p (loadConfigFromCli [])) := by
    unfold loadConfig
    rw [hy]
  rw [hstep, loadConfigFromEnv_nil, loadConfigFromCli_nil, mergedOf_empty]
  unfold configSchemaParse
  rw [if_pos herr]

def wizardPartialW : PartialConfig :=
  { server := some ["node", "server.js"]
    privateKey := some key64
    relays := some ["wss://relay.example"]
    publicFlag := some true }

/-- Witness for C7: a concrete wizard-confirmed partial round-trips
through the file into the resolved configuration. -/
theorem wizard_round_trip_witness :
    loadConfig [] (FileReadResult.content ("dump")) (fun _ => Except.ok wizardPartialW) [] =
      Except.ok { server := ["node", "server.js"], privateKey := key64
                  relays := ["wss://relay.example"], publicFlag := true, serverInfo := none
                  allowedPublicKeys := none, encryptionMode := "OPTIONAL" } :=
  wizard_round_trip wizardPartialW (fun _ => Except.ok wizardPartialW) ("dump")
    ⟨⟨_, rfl, by decide⟩, ⟨_, rfl, by decide⟩, ⟨_, rfl, by decide⟩, fun _ hm => nomatch hm⟩ rfl

end GatewayCli
